import Mathlib

/-!
Verification of the novelWriter HTML converter (`nw/core/tohtml.py`).

Text is modelled as `List Char`.  Python's `re.sub` with an alternation of
escaped literal keys is modelled by `reSub`: a single left-to-right scan
that, at each position, tries the keys in table order and replaces the
first literal match, or passes the character through; `str.replace` is the
single-entry case of the same scan.
-/

namespace ToHtml

/-- Python whitespace test used by `str.rstrip()` (the ASCII whitespace set). -/
def isPySpace (c : Char) : Bool :=
  c = ' ' || c = '\t' || c = '\n' || c = '\r' || c = '\u000B' || c = '\u000C'

/-- Python `str.rstrip()`: remove trailing whitespace. -/
def rstrip (s : List Char) : List Char :=
  (s.reverse.dropWhile isPySpace).reverse

/-- Literal prefix test between character lists. -/
def isPrefixList : List Char → List Char → Bool
  | [], _ => true
  | _ :: _, [] => false
  | a :: as, b :: bs => if a = b then isPrefixList as bs else false

/-- First table entry whose (nonempty) literal key is a prefix of `s`,
returning the replacement together with the key length: the ordered
alternation of literal keys tried at one scan position. -/
def firstMatch : List (List Char × List Char) → List Char → Option (List Char × Nat)
  | [], _ => none
  | (k, v) :: rest, s =>
    if k ≠ [] ∧ isPrefixList k s then some (v, k.length) else firstMatch rest s

/-- Left-to-right, non-overlapping literal substitution, structurally
recursive on a fuel bound: the scan consumes at least one character per
step, so any fuel of at least `s.length` computes the full substitution.
`cs.drop (klen - 1)` is `(c :: cs).drop klen` since matched keys are
nonempty. -/
def reSubF (tbl : List (List Char × List Char)) : Nat → List Char → List Char
  | _, [] => []
  | 0, s => s
  | n + 1, c :: cs =>
    match firstMatch tbl (c :: cs) with
    | some (v, klen) => v ++ reSubF tbl n (cs.drop (klen - 1))
    | none => c :: reSubF tbl n cs

/-- Models Python `re.sub` over an alternation of escaped literal keys
(and `str.replace` for a single-entry table). -/
def reSub (tbl : List (List Char × List Char)) (s : List Char) : List Char :=
  reSubF tbl s.length s

/-- Python `s.replace(pat, rep)`. -/
def pyReplace (s pat rep : List Char) : List Char :=
  reSub [(pat, rep)] s

/-- Python `sep.join(xs)`. -/
def pyJoin (sep : List Char) : List (List Char) → List Char
  | [] => []
  | [x] => x
  | x :: xs => x ++ sep ++ pyJoin sep xs

/-- The entity substitution table `self.repDict` of `ToHtml.__init__`.
The `nwUnicode` constants live in `nw/constants`, outside the converter
module.  Modelled from the spec: the keys are the literal characters angle
brackets, ampersand, en dash, em dash, ellipsis, no-break space, thin
space, narrow no-break space and modifier apostrophe, each mapped to its
HTML entity. -/
def repDict : List (List Char × List Char) :=
  [ (['<'], "&lt;".data)
  , (['>'], "&gt;".data)
  , (['&'], "&amp;".data)
  , (['–'], "&ndash;".data)
  , (['—'], "&mdash;".data)
  , (['…'], "&hellip;".data)
  , ([' '], "&nbsp;".data)
  , ([' '], "&thinsp;".data)
  , ([' '], "&#8239;".data)
  , (['ʼ'], "&rsquo;".data)
  ]

/-- Models `self.revDict = dict(map(reversed, self.repDict.items()))` from `_buildRegEx`. -/
def revDict : List (List Char × List Char) :=
  repDict.map (fun kv => (kv.2, kv.1))

/-- The entity-encoding pass of `doAutoReplace`:
`self.reReplace.sub(lambda x: self.repDict[x.group(0)], self.theText)`. -/
def encodeEntities (s : List Char) : List Char :=
  reSub repDict s

/-- The entity-decoding pass of `doPostProcessing`:
`self.reReverse.sub(lambda x: self.revDict[x.group(0)], self.theMarkdown[-1])`. -/
def decodeEntities (s : List Char) : List Char :=
  reSub revDict s

/-- The characters appearing as keys of the substitution table. -/
def repChars : List Char :=
  ['<', '>', '&', '–', '—', '…', ' ', ' ', ' ', 'ʼ']

/-- The entity that `encodeEntities` substitutes for a mapped character. -/
def entityOf (c : Char) : List Char :=
  ((repDict.find? (fun kv => decide (kv.1 = [c]))).map Prod.snd).getD [c]

/-- The render modes `M_PREVIEW`, `M_EXPORT`, `M_EBOOK`. -/
inductive Mode
  | preview
  | export
  | ebook
deriving DecidableEq

/-- The inline format kinds `FMT_B_B .. FMT_D_E` of the `Tokenizer`. -/
inductive Fmt
  | fBB
  | fBE
  | fIB
  | fIE
  | fDB
  | fDE
deriving DecidableEq

/-- The token types `T_EMPTY .. T_KEYWORD` of the `Tokenizer`. -/
inductive TType
  | tEmpty
  | tTitle
  | tHead1
  | tHead2
  | tHead3
  | tHead4
  | tSep
  | tSkip
  | tText
  | tSynopsis
  | tComment
  | tKeyword
deriving DecidableEq

/-- The `A_*` style bitmask of the `Tokenizer`, as a record of flags. -/
structure StyleFlags where
  aLeft : Bool
  aRight : Bool
  aCentre : Bool
  aJustify : Bool
  aPBB : Bool
  aPBBAut : Bool
  aPBA : Bool
  aPBAAut : Bool
  aBtmMrg : Bool
  aTopMrg : Bool
deriving DecidableEq

/-- One token tuple `(tType, tLine, tText, tFormat, tStyle)` consumed by
`doConvert`. -/
structure Token where
  tType : TType
  tLine : Nat
  tText : List Char
  tFormat : List (Nat × Nat × Fmt)
  tStyle : Option StyleFlags

/-- The converter settings read inside `doConvert` (attributes of the
converter instance). -/
structure Config where
  genMode : Mode
  cssStyles : Bool
  isNovel : Bool
  linkHeaders : Bool
  doSynopsis : Bool
  doComments : Bool
  doKeywords : Bool

/-- The inline-format tag table of `doConvert`: HTML4 + CSS2 in Preview
mode, HTML5 otherwise. -/
def htmlTags (genMode : Mode) (f : Fmt) : List Char :=
  if genMode = Mode.preview then
    match f with
    | .fBB => "<b>".data
    | .fBE => "</b>".data
    | .fIB => "<i>".data
    | .fIE => "</i>".data
    | .fDB => "<span style='text-decoration: line-through;'>".data
    | .fDE => "</span>".data
  else
    match f with
    | .fBB => "<strong>".data
    | .fBE => "</strong>".data
    | .fIB => "<em>".data
    | .fIE => "</em>".data
    | .fDB => "<del>".data
    | .fDE => "</del>".data

/-- The heading tag names and title class chosen by `doConvert`. -/
structure HeadTags where
  h1Cl : List Char
  h1 : List Char
  h2 : List Char
  h3 : List Char
  h4 : List Char

/-- The heading tag/class choice made at the top of `doConvert`. -/
def headTags (cfg : Config) : HeadTags :=
  if cfg.isNovel ∧ cfg.genMode ≠ Mode.preview then
    ⟨" class='title'".data, "h1".data, "h1".data, "h2".data, "h3".data⟩
  else
    ⟨[], "h1".data, "h2".data, "h3".data, "h4".data⟩

/-- The `aStyle` list assembled from the style flag bitmask. -/
def aStyleList (cfg : Config) (tStyle : Option StyleFlags) : List (List Char) :=
  match tStyle with
  | none => []
  | some st =>
      if cfg.cssStyles then
        (if st.aLeft then ["text-align: left;".data]
         else if st.aRight then ["text-align: right;".data]
         else if st.aCentre then ["text-align: center;".data]
         else if st.aJustify then ["text-align: justify;".data]
         else [])
        ++ (if st.aPBB then ["page-break-before: always;".data]
            else if st.aPBBAut then ["page-break-before: auto;".data]
            else [])
        ++ (if st.aPBA then ["page-break-after: always;".data]
            else if st.aPBAAut then ["page-break-after: auto;".data]
            else [])
        ++ (if st.aBtmMrg then ["margin-bottom: 0;".data] else [])
        ++ (if st.aTopMrg then ["margin-top: 0;".data] else [])
      else []

/-- The `hStyle` attribute: `" style='%s'" % " ".join(aStyle)` when `aStyle` is nonempty. -/
def hStyleOf (cfg : Config) (tStyle : Option StyleFlags) : List Char :=
  let aStyle := aStyleList cfg tStyle
  if aStyle.length > 0 then " style='".data ++ pyJoin [' '] aStyle ++ ['\''] else []

/-- Python `"%06d" % n`. -/
def pad6 (n : Nat) : List Char :=
  let ds := Nat.toDigits 10 n
  List.replicate (6 - ds.length) '0' ++ ds

/-- The `aNm` anchor `<a name='T%06d'></a>` emitted when `linkHeaders` is
enabled. -/
def aNmOf (cfg : Config) (tLine : Nat) : List Char :=
  if cfg.linkHeaders then "<a name='T".data ++ pad6 tLine ++ "'></a>".data else []

/-- Models `_formatSynopsis`. -/
def formatSynopsis (cfg : Config) (tText : List Char) : List Char :=
  if cfg.genMode = Mode.preview then
    "<p class='comment'><span class='synopsis'>Synopsis:</span> ".data ++ tText
      ++ "</p>\n".data
  else
    "<p class='synopsis'><strong>Synopsis:</strong> ".data ++ tText ++ "</p>\n".data

/-- Models `_formatComments`. -/
def formatComments (cfg : Config) (tText : List Char) : List Char :=
  if cfg.genMode = Mode.preview then
    "<p class='comment'>".data ++ tText ++ "</p>\n".data
  else
    "<p class='comment'><strong>Comment:</strong> ".data ++ tText ++ "</p>\n".data

/-- Modelled from the spec: `nwKeyWords.TAG_KEY`, the tag-definition
keyword key, from the missing `nw/constants` module. -/
def TAG_KEY : List Char := "@tag".data

/-- Modelled from the spec: the fixed label table `nwLabels.KEY_NAME` of
the missing `nw/constants` module, mapping each keyword key to a
human-readable label (representative entries; the tag-definition key is
`TAG_KEY`). -/
def KEY_NAME : List (List Char × List Char) :=
  [ ("@tag".data, "Tag".data)
  , ("@pov".data, "Point of View".data)
  , ("@char".data, "Characters".data)
  , ("@plot".data, "Plot".data)
  , ("@time".data, "Timelines".data)
  , ("@location".data, "Locations".data)
  , ("@object".data, "Objects".data)
  , ("@entity".data, "Entities".data)
  , ("@custom".data, "Custom".data)
  ]

/-- Lookup of `theBits[0]` in `nwLabels.KEY_NAME`, giving the label. -/
def keyLabel (k : List Char) : Option (List Char) :=
  (KEY_NAME.find? (fun kv => decide (kv.1 = k))).map Prod.snd

/-- Models `_formatKeywords`, taking the `(isValid, theBits)` part of the external
index answer `scanThis("@" + tText)` as input (`thePos` is unused). -/
def formatKeywords (genMode : Mode) (isValid : Bool)
    (theBits : List (List Char)) : List Char :=
  if !isValid || theBits.isEmpty then [] else
  match theBits with
  | [] => []
  | b0 :: rest =>
      match keyLabel b0 with
      | none => []
      | some label =>
          let retText := "<span class='tags'>".data ++ label ++ ":</span> ".data
          match rest with
          | [] => retText
          | b1 :: _ =>
              if b0 = TAG_KEY then
                retText ++ "<a name='tag_".data ++ b1 ++ "'>".data ++ b1
                  ++ "</a>".data
              else if genMode = Mode.preview then
                retText ++ pyJoin ", ".data (rest.map (fun tTag =>
                  "<a href='#".data ++ b0.drop 1 ++ ['='] ++ tTag ++ "'>".data
                    ++ tTag ++ "</a>".data))
              else
                retText ++ pyJoin ", ".data (rest.map (fun tTag =>
                  "<a href='#tag_".data ++ tTag ++ "'>".data ++ tTag
                    ++ "</a>".data))

/-- The external index interface:
`scanThis(key) -> (isValid, theBits, thePos)`. -/
def ScanFun : Type := List Char → Bool × List (List Char) × List Nat

/-- Inline format span application inside the `T_TEXT` branch:
`for xPos, xLen, xFmt in reversed(tFormat): tTemp = tTemp[:xPos] +
htmlTags[xFmt] + tTemp[xPos+xLen:]`. -/
def applySpans (tags : Fmt → List Char) (tFormat : List (Nat × Nat × Fmt))
    (tText : List Char) : List Char :=
  tFormat.reverse.foldl
    (fun tTemp x => tTemp.take x.1 ++ tags x.2.2 ++ tTemp.drop (x.1 + x.2.1)) tText

/-- Python `tText.endswith("  ")`. -/
def endsTwoSpaces (t : List Char) : Bool :=
  match t.reverse with
  | ' ' :: ' ' :: _ => true
  | _ => false

/-- The per-document mutable state of the `doConvert` loop. -/
structure ConvState where
  thisPar : List (List Char)
  parStyle : Option (List Char)
  hasHardBreak : Bool
  tmpResult : List (List Char)

/-- The loop state at the top of `doConvert`. -/
def initState : ConvState := ⟨[], none, false, []⟩

/-- One iteration of the `doConvert` token loop. -/
def convStep (cfg : Config) (scan : ScanFun) (s : ConvState) (tok : Token) :
    ConvState :=
  let hStyle := hStyleOf cfg tok.tStyle
  let aNm := aNmOf cfg tok.tLine
  let ht := headTags cfg
  match tok.tType with
  | .tEmpty =>
      let parStyle := s.parStyle.getD []
      let parClass :=
        if s.hasHardBreak ∧ cfg.cssStyles then " class='break'".data else []
      let tmpResult :=
        if s.thisPar.length > 0 then
          s.tmpResult ++ ["<p".data ++ parStyle ++ parClass ++ ['>']
            ++ rstrip (pyJoin [] s.thisPar) ++ "</p>\n".data]
        else s.tmpResult
      ⟨[], none, false, tmpResult⟩
  | .tTitle =>
      let tHead := pyReplace tok.tText "\\\\".data "<br/>".data
      { s with tmpResult := s.tmpResult ++ ["<h1 class='title'".data ++ hStyle
          ++ ['>'] ++ aNm ++ tHead ++ "</h1>\n".data] }
  | .tHead1 =>
      let tHead := pyReplace tok.tText "\\\\".data "<br/>".data
      { s with tmpResult := s.tmpResult ++ [['<'] ++ ht.h1 ++ ht.h1Cl ++ hStyle
          ++ ['>'] ++ aNm ++ tHead ++ "</".data ++ ht.h1 ++ ">\n".data] }
  | .tHead2 =>
      let tHead := pyReplace tok.tText "\\\\".data "<br/>".data
      { s with tmpResult := s.tmpResult ++ [['<'] ++ ht.h2 ++ hStyle
          ++ ['>'] ++ aNm ++ tHead ++ "</".data ++ ht.h2 ++ ">\n".data] }
  | .tHead3 =>
      let tHead := pyReplace tok.tText "\\\\".data "<br/>".data
      { s with tmpResult := s.tmpResult ++ [['<'] ++ ht.h3 ++ hStyle
          ++ ['>'] ++ aNm ++ tHead ++ "</".data ++ ht.h3 ++ ">\n".data] }
  | .tHead4 =>
      let tHead := pyReplace tok.tText "\\\\".data "<br/>".data
      { s with tmpResult := s.tmpResult ++ [['<'] ++ ht.h4 ++ hStyle
          ++ ['>'] ++ aNm ++ tHead ++ "</".data ++ ht.h4 ++ ">\n".data] }
  | .tSep =>
      { s with tmpResult := s.tmpResult
          ++ ["<p class='sep'>".data ++ tok.tText ++ "</p>\n".data] }
  | .tSkip =>
      { s with tmpResult := s.tmpResult ++ ["<p class='skip'>&nbsp;</p>\n".data] }
  | .tText =>
      let parStyle := match s.parStyle with
        | none => some hStyle
        | some ps => some ps
      let tTemp := applySpans (htmlTags cfg.genMode) tok.tFormat tok.tText
      if endsTwoSpaces tok.tText then
        { s with thisPar := s.thisPar ++ [rstrip tTemp ++ "<br/>".data],
                 parStyle := parStyle, hasHardBreak := true }
      else
        { s with thisPar := s.thisPar ++ [rstrip tTemp ++ [' ']],
                 parStyle := parStyle }
  | .tSynopsis =>
      if cfg.doSynopsis then
        { s with tmpResult := s.tmpResult ++ [formatSynopsis cfg tok.tText] }
      else s
  | .tComment =>
      if cfg.doComments then
        { s with tmpResult := s.tmpResult ++ [formatComments cfg tok.tText] }
      else s
  | .tKeyword =>
      if cfg.doKeywords then
        let r := scan ('@' :: tok.tText)
        { s with tmpResult := s.tmpResult ++ ["<p".data ++ hStyle ++ ['>']
            ++ formatKeywords cfg.genMode r.1 r.2.1 ++ "</p>\n".data] }
      else s

/-- Models `doConvert`: run the token loop and join the fragments into
`theResult`. -/
def doConvert (cfg : Config) (scan : ScanFun) (theTokens : List Token) :
    List Char :=
  pyJoin [] ((theTokens.foldl (convStep cfg scan) initState).tmpResult)

/-- An index answer reporting every keyword invalid. -/
def scanInvalid : ScanFun := fun _ => (false, [], [])

/-- A converter configuration with CSS styling on, anchors off and all
optional note types off. -/
def plainCfg (m : Mode) (novel : Bool) : Config :=
  ⟨m, true, novel, false, false, false, false⟩

/-- Python `spaceChar * nSpaces`. -/
def pyRepeat (s : List Char) (n : Nat) : List Char :=
  (List.replicate n s).flatten

/-- Models `replaceTabs`: replace tab characters in every accumulated fragment
with `spaceChar * nSpaces` (source defaults: `nSpaces=8`,
`spaceChar="&nbsp;"`). -/
def replaceTabs (fullHTML : List (List Char)) (nSpaces : Nat)
    (spaceChar : List Char) : List (List Char) :=
  fullHTML.map (fun aLine => pyReplace aLine ['\t'] (pyRepeat spaceChar nSpaces))

/-- The document assembly of `saveHTML5`: join the accumulated fragments,
replace tabs by `&#09;`, strip trailing whitespace and wrap the body in
the fixed envelope, substituting the project title verbatim. -/
def assembleHTML (fullHTML : List (List Char)) (projTitle htmlStyle : List Char) :
    List Char :=
  let bodyText := rstrip (pyReplace (pyJoin [] fullHTML) ['\t'] "&#09;".data)
  "<!DOCTYPE html>\n<html>\n<head>\n<meta charset='utf-8'>\n<title>".data
    ++ projTitle ++ "</title>\n</head>\n<style>\n".data ++ htmlStyle
    ++ "\n</style>\n<body>\n<article>\n".data ++ bodyText
    ++ "\n</article>\n</body>\n</html>\n".data

lemma reSubF_nil (tbl : List (List Char × List Char)) (n : Nat) :
    reSubF tbl n [] = [] := by
  cases n <;> rfl

lemma reSubF_fuel (tbl : List (List Char × List Char)) :
    ∀ n m s, s.length ≤ n → s.length ≤ m → reSubF tbl n s = reSubF tbl m s := by
  intro n
  induction n with
  | zero =>
      intro m s hn _
      have : s = [] := List.eq_nil_of_length_eq_zero (Nat.le_zero.mp hn)
      subst this
      rw [reSubF_nil, reSubF_nil]
  | succ n ih =>
      intro m s hn hm
      cases s with
      | nil => rw [reSubF_nil, reSubF_nil]
      | cons c cs =>
          cases m with
          | zero => simp at hm
          | succ m =>
              cases h : firstMatch tbl (c :: cs) with
              | some r =>
                  obtain ⟨v, klen⟩ := r
                  simp only [reSubF, h]
                  have h1 : (cs.drop (klen - 1)).length ≤ n := by
                    have := List.length_drop (klen - 1) cs
                    simp at hn
                    omega
                  have h2 : (cs.drop (klen - 1)).length ≤ m := by
                    have := List.length_drop (klen - 1) cs
                    simp at hm
                    omega
                  rw [ih m (cs.drop (klen - 1)) h1 h2]
              | none =>
                  simp only [reSubF, h]
                  have h1 : cs.length ≤ n := by simp at hn; omega
                  have h2 : cs.length ≤ m := by simp at hm; omega
                  rw [ih m cs h1 h2]

lemma reSub_nil (tbl : List (List Char × List Char)) : reSub tbl [] = [] := rfl

lemma reSub_cons_match {tbl : List (List Char × List Char)} {c : Char}
    {cs v : List Char} {klen : Nat}
    (h : firstMatch tbl (c :: cs) = some (v, klen)) :
    reSub tbl (c :: cs) = v ++ reSub tbl (cs.drop (klen - 1)) := by
  show reSubF tbl (c :: cs).length (c :: cs) = _
  simp only [List.length_cons, reSubF, h]
  rw [reSubF_fuel tbl cs.length (cs.drop (klen - 1)).length (cs.drop (klen - 1))
    (by simp [List.length_drop]) (Nat.le_refl _)]
  rfl

lemma reSub_cons_nomatch {tbl : List (List Char × List Char)} {c : Char}
    {cs : List Char} (h : firstMatch tbl (c :: cs) = none) :
    reSub tbl (c :: cs) = c :: reSub tbl cs := by
  show reSubF tbl (c :: cs).length (c :: cs) = _
  simp only [List.length_cons, reSubF, h]
  rfl

lemma pyJoin_nil_eq_join (xs : List (List Char)) : pyJoin [] xs = xs.flatten := by
  induction xs with
  | nil => rfl
  | cons x xs ih =>
      cases xs with
      | nil => simp [pyJoin]
      | cons y ys => simp [pyJoin, ih]

lemma encode_cons_of_mem (c : Char) (hc : c ∈ repChars) (cs : List Char) :
    encodeEntities (c :: cs) = entityOf c ++ encodeEntities cs := by
  fin_cases hc
  · exact reSub_cons_match (rfl : firstMatch repDict ('<' :: cs) = some ("&lt;".data, 1))
  · exact reSub_cons_match (rfl : firstMatch repDict ('>' :: cs) = some ("&gt;".data, 1))
  · exact reSub_cons_match (rfl : firstMatch repDict ('&' :: cs) = some ("&amp;".data, 1))
  · exact reSub_cons_match (rfl : firstMatch repDict ('–' :: cs) = some ("&ndash;".data, 1))
  · exact reSub_cons_match (rfl : firstMatch repDict ('—' :: cs) = some ("&mdash;".data, 1))
  · exact reSub_cons_match (rfl : firstMatch repDict ('…' :: cs) = some ("&hellip;".data, 1))
  · exact reSub_cons_match (rfl : firstMatch repDict (' ' :: cs) = some ("&nbsp;".data, 1))
  · exact reSub_cons_match (rfl : firstMatch repDict (' ' :: cs) = some ("&thinsp;".data, 1))
  · exact reSub_cons_match (rfl : firstMatch repDict (' ' :: cs) = some ("&#8239;".data, 1))
  · exact reSub_cons_match (rfl : firstMatch repDict ('ʼ' :: cs) = some ("&rsquo;".data, 1))

lemma decode_entity_cons (c : Char) (hc : c ∈ repChars) (y : List Char) :
    decodeEntities (entityOf c ++ y) = c :: decodeEntities y := by
  fin_cases hc
  · exact reSub_cons_match
      (rfl : firstMatch revDict ('&' :: 'l' :: 't' :: ';' ::y) = some (['<'], 4))
  · exact reSub_cons_match
      (rfl : firstMatch revDict ('&' :: 'g' :: 't' :: ';' ::y) = some (['>'], 4))
  · exact reSub_cons_match
      (rfl : firstMatch revDict ('&' :: 'a' :: 'm' :: 'p' :: ';' ::y) = some (['&'], 5))
  · exact reSub_cons_match
      (rfl : firstMatch revDict ('&' :: 'n' :: 'd' :: 'a' :: 's' :: 'h' :: ';' ::y) = some (['–'], 7))
  · exact reSub_cons_match
      (rfl : firstMatch revDict ('&' :: 'm' :: 'd' :: 'a' :: 's' :: 'h' :: ';' ::y) = some (['—'], 7))
  · exact reSub_cons_match
      (rfl : firstMatch revDict ('&' :: 'h' :: 'e' :: 'l' :: 'l' :: 'i' :: 'p' :: ';' ::y) = some (['…'], 8))
  · exact reSub_cons_match
      (rfl : firstMatch revDict ('&' :: 'n' :: 'b' :: 's' :: 'p' :: ';' ::y) = some ([' '], 6))
  · exact reSub_cons_match
      (rfl : firstMatch revDict ('&' :: 't' :: 'h' :: 'i' :: 'n' :: 's' :: 'p' :: ';' ::y) = some ([' '], 8))
  · exact reSub_cons_match
      (rfl : firstMatch revDict ('&' :: '#' :: '8' :: '2' :: '3' :: '9' :: ';' ::y) = some ([' '], 7))
  · exact reSub_cons_match
      (rfl : firstMatch revDict ('&' :: 'r' :: 's' :: 'q' :: 'u' :: 'o' :: ';' ::y) = some (['ʼ'], 7))

lemma isPrefixList_single {k c : Char} (h : k ≠ c) (cs : List Char) :
    isPrefixList [k] (c :: cs) = false := by
  simp [isPrefixList, h]

lemma firstMatch_repDict_none (c : Char) (hc : c ∉ repChars) (cs : List Char) :
    firstMatch repDict (c :: cs) = none := by
  simp only [repChars, List.mem_cons, List.not_mem_nil, or_false, not_or] at hc
  obtain ⟨h1, h2, h3, h4, h5, h6, h7, h8, h9, h10⟩ := hc
  simp [firstMatch, repDict,
    isPrefixList_single (Ne.symm h1) cs, isPrefixList_single (Ne.symm h2) cs,
    isPrefixList_single (Ne.symm h3) cs, isPrefixList_single (Ne.symm h4) cs,
    isPrefixList_single (Ne.symm h5) cs, isPrefixList_single (Ne.symm h6) cs,
    isPrefixList_single (Ne.symm h7) cs, isPrefixList_single (Ne.symm h8) cs,
    isPrefixList_single (Ne.symm h9) cs, isPrefixList_single (Ne.symm h10) cs]

lemma firstMatch_revDict_none (c : Char) (hc : c ≠ '&') (cs : List Char) :
    firstMatch revDict (c :: cs) = none := by
  simp [firstMatch, revDict, repDict, isPrefixList, Ne.symm hc]

/-- C1: for every string composed only of characters in the entity
substitution table, decoding the encoding gives the string back; a
character outside the table is passed through unchanged by the forward
substitution, and a character that starts no entity (anything but `&`) is
passed through unchanged by the reverse substitution. -/
theorem C1_entity_roundtrip :
    (∀ x : List Char, (∀ c ∈ x, c ∈ repChars) →
      decodeEntities (encodeEntities x) = x)
    ∧ (∀ (c : Char) (cs : List Char), c ∉ repChars →
        encodeEntities (c :: cs) = c :: encodeEntities cs)
    ∧ (∀ (c : Char) (cs : List Char), c ≠ '&' →
        decodeEntities (c :: cs) = c :: decodeEntities cs) := by
  refine ⟨?_, ?_, ?_⟩
  · intro x
    induction x with
    | nil => intro _; rfl
    | cons c cs ih =>
        intro hx
        have hc : c ∈ repChars := hx c (List.mem_cons_self c cs)
        have hcs : ∀ d ∈ cs, d ∈ repChars := fun d hd => hx d (List.mem_cons_of_mem c hd)
        rw [encode_cons_of_mem c hc cs, decode_entity_cons c hc (encodeEntities cs),
          ih hcs]
  · exact fun c cs hc => reSub_cons_nomatch (firstMatch_repDict_none c hc cs)
  · exact fun c cs hc => reSub_cons_nomatch (firstMatch_revDict_none c hc cs)

/-- Witness for C1 at concrete inputs. -/
theorem C1_entity_roundtrip_witness :
    decodeEntities (encodeEntities ['<', '&', '–']) = ['<', '&', '–']
    ∧ encodeEntities ['a'] = 'a' :: encodeEntities []
    ∧ decodeEntities ['x'] = 'x' :: decodeEntities [] :=
  ⟨C1_entity_roundtrip.1 ['<', '&', '–'] (by decide),
   C1_entity_roundtrip.2.1 'a' [] (by decide),
   C1_entity_roundtrip.2.2 'x' [] (by decide)⟩

/-- C2: a token sequence of the two plain text tokens `"Hello "` and
`"world."` followed by an `Empty` token renders to exactly one paragraph
fragment, equal to `"<p>Hello world.</p>\n"`. -/
theorem C2_paragraph_flush :
    doConvert ⟨Mode.export, true, false, false, false, false, false⟩ scanInvalid
      [ ⟨TType.tText, 1, "Hello ".data, [], none⟩
      , ⟨TType.tText, 2, "world.".data, [], none⟩
      , ⟨TType.tEmpty, 3, [], [], none⟩ ]
      = "<p>Hello world.</p>\n".data
    ∧ (([ ⟨TType.tText, 1, "Hello ".data, [], none⟩
        , ⟨TType.tText, 2, "world.".data, [], none⟩
        , ⟨TType.tEmpty, 3, [], [], none⟩ ] : List Token).foldl
          (convStep ⟨Mode.export, true, false, false, false, false, false⟩
            scanInvalid) initState).tmpResult
        = ["<p>Hello world.</p>\n".data] := by
  constructor
  · decide
  · decide

/-- C3: `applySpans` applies the listed spans right-most first (the last
listed span, at the highest position when spans are listed in ascending
position order, is substituted into the original text first), replacing
the substring at `[position, position + length)` by the tag-table
delimiter of the span's format kind; the tag table is the HTML4 set in
Preview mode and the HTML5 set otherwise; and an empty span list leaves
the text unchanged. -/
theorem C3_apply_spans :
    (∀ (tags : Fmt → List Char) (t : List Char), applySpans tags [] t = t)
    ∧ (∀ (tags : Fmt → List Char) (spans : List (Nat × Nat × Fmt)) (p l : Nat)
        (f : Fmt) (t : List Char),
        applySpans tags (spans ++ [(p, l, f)]) t
          = applySpans tags spans (t.take p ++ tags f ++ t.drop (p + l)))
    ∧ (∀ m : Mode,
        htmlTags m Fmt.fBB
            = (if m = Mode.preview then "<b>".data else "<strong>".data)
        ∧ htmlTags m Fmt.fBE
            = (if m = Mode.preview then "</b>".data else "</strong>".data)
        ∧ htmlTags m Fmt.fIB
            = (if m = Mode.preview then "<i>".data else "<em>".data)
        ∧ htmlTags m Fmt.fIE
            = (if m = Mode.preview then "</i>".data else "</em>".data)
        ∧ htmlTags m Fmt.fDB
            = (if m = Mode.preview then
                "<span style='text-decoration: line-through;'>".data
              else "<del>".data)
        ∧ htmlTags m Fmt.fDE
            = (if m = Mode.preview then "</span>".data else "</del>".data)) := by
  refine ⟨fun tags t => rfl, ?_, ?_⟩
  · intro tags spans p l f t
    simp [applySpans, List.reverse_append]
  · intro m
    cases m <;> refine ⟨rfl, rfl, rfl, rfl, rfl, rfl⟩

lemma rstrip_append_nonspace (x : List Char) (c : Char) (hc : isPySpace c = false) :
    rstrip (x ++ [c]) = x ++ [c] := by
  simp [rstrip, List.reverse_append, List.dropWhile_cons, hc]

lemma rstrip_append_br (x : List Char) :
    rstrip (x ++ ['<', 'b', 'r', '/', '>']) = x ++ ['<', 'b', 'r', '/', '>'] := by
  have h := rstrip_append_nonspace (x ++ ['<', 'b', 'r', '/']) '>' (by decide)
  simpa [List.append_assoc] using h

/-- C4: a text token whose raw text ends in two spaces contributes its
right-trimmed rendering followed by `<br/>` instead of a trailing space,
and with CSS styling enabled the paragraph flushed by the next `Empty`
token carries `class='break'`. -/
theorem C4_hard_break :
    ∀ (cfg : Config) (scan : ScanFun) (t : List Char) (ln ln2 : Nat),
      cfg.cssStyles = true → endsTwoSpaces t = true →
      doConvert cfg scan
        [⟨TType.tText, ln, t, [], none⟩, ⟨TType.tEmpty, ln2, [], [], none⟩]
        = "<p class='break'>".data ++ rstrip t ++ "<br/></p>\n".data := by
  intro cfg scan t ln ln2 h1 h2
  simp [doConvert, convStep, hStyleOf, aStyleList, applySpans, pyJoin, h1, h2,
    initState, rstrip_append_br]

/-- Witness for C4 at a concrete input. -/
theorem C4_hard_break_witness :
    doConvert ⟨Mode.export, true, false, false, false, false, false⟩ scanInvalid
      [⟨TType.tText, 1, "ab  ".data, [], none⟩, ⟨TType.tEmpty, 2, [], [], none⟩]
      = "<p class='break'>".data ++ rstrip "ab  ".data ++ "<br/></p>\n".data :=
  C4_hard_break ⟨Mode.export, true, false, false, false, false, false⟩ scanInvalid
    "ab  ".data 1 2 rfl (by decide)

/-- C5: for a novel document in a non-Preview mode, `Heading1` renders as
`h1` with the title class while `Heading2/3/4` render one level higher
(`h1`, `h2`, `h3`) without it; in every other mode/flag combination the
four heading levels map 1:1 onto `h1..h4` with no title class. -/
theorem C5_heading_promotion :
    ∀ (m : Mode) (t : List Char) (ln : Nat) (scan : ScanFun),
      (m ≠ Mode.preview →
        (doConvert (plainCfg m true) scan [⟨TType.tHead1, ln, t, [], none⟩]
          = "<h1 class='title'>".data ++ pyReplace t "\\\\".data "<br/>".data
            ++ "</h1>\n".data)
        ∧ (doConvert (plainCfg m true) scan [⟨TType.tHead2, ln, t, [], none⟩]
          = "<h1>".data ++ pyReplace t "\\\\".data "<br/>".data
            ++ "</h1>\n".data)
        ∧ (doConvert (plainCfg m true) scan [⟨TType.tHead3, ln, t, [], none⟩]
          = "<h2>".data ++ pyReplace t "\\\\".data "<br/>".data
            ++ "</h2>\n".data)
        ∧ (doConvert (plainCfg m true) scan [⟨TType.tHead4, ln, t, [], none⟩]
          = "<h3>".data ++ pyReplace t "\\\\".data "<br/>".data
            ++ "</h3>\n".data))
      ∧ (∀ novel : Bool, m = Mode.preview ∨ novel = false →
          (doConvert (plainCfg m novel) scan [⟨TType.tHead1, ln, t, [], none⟩]
            = "<h1>".data ++ pyReplace t "\\\\".data "<br/>".data
              ++ "</h1>\n".data)
          ∧ (doConvert (plainCfg m novel) scan [⟨TType.tHead2, ln, t, [], none⟩]
            = "<h2>".data ++ pyReplace t "\\\\".data "<br/>".data
              ++ "</h2>\n".data)
          ∧ (doConvert (plainCfg m novel) scan [⟨TType.tHead3, ln, t, [], none⟩]
            = "<h3>".data ++ pyReplace t "\\\\".data "<br/>".data
              ++ "</h3>\n".data)
          ∧ (doConvert (plainCfg m novel) scan [⟨TType.tHead4, ln, t, [], none⟩]
            = "<h4>".data ++ pyReplace t "\\\\".data "<br/>".data
              ++ "</h4>\n".data)) := by
  intro m t ln scan
  constructor
  · intro hm
    have hht : headTags ⟨m, true, true, false, false, false, false⟩
        = ⟨" class='title'".data, "h1".data, "h1".data, "h2".data, "h3".data⟩ := by
      simp [headTags, hm]
    refine ⟨?_, ?_, ?_, ?_⟩ <;>
      simp [doConvert, convStep, hht, hStyleOf, aStyleList, aNmOf, pyJoin, plainCfg]
  · intro novel h
    have hht : headTags ⟨m, true, novel, false, false, false, false⟩
        = ⟨[], "h1".data, "h2".data, "h3".data, "h4".data⟩ := by
      rcases h with h | h <;> subst h <;> simp [headTags]
    refine ⟨?_, ?_, ?_, ?_⟩ <;>
      simp [doConvert, convStep, hht, hStyleOf, aStyleList, aNmOf, pyJoin, plainCfg]

/-- Witness for C5 at concrete inputs. -/
theorem C5_heading_promotion_witness :
    (doConvert (plainCfg Mode.export true) scanInvalid
        [⟨TType.tHead2, 1, "ab".data, [], none⟩]
      = "<h1>".data ++ pyReplace "ab".data "\\\\".data "<br/>".data
        ++ "</h1>\n".data)
    ∧ (doConvert (plainCfg Mode.preview true) scanInvalid
        [⟨TType.tHead2, 1, "ab".data, [], none⟩]
      = "<h2>".data ++ pyReplace "ab".data "\\\\".data "<br/>".data
        ++ "</h2>\n".data) :=
  ⟨((C5_heading_promotion Mode.export "ab".data 1 scanInvalid).1
      (by decide)).2.1,
   ((C5_heading_promotion Mode.preview "ab".data 1 scanInvalid).2 true
      (Or.inl rfl)).2.1⟩

/-- C6: a valid tag-definition keyword renders its second segment as a
self-named anchor; every other known keyword kind renders each remaining
value as a hyperlink, targeting `tag_<value>` anchors outside Preview mode
and a `<kindname>=<value>` address in Preview mode, with values joined by
a comma and space. -/
theorem C6_keyword_links :
    ∀ (m : Mode) (v : List Char) (rest : List (List Char)),
      (formatKeywords m true (TAG_KEY :: v :: rest)
        = "<span class='tags'>Tag:</span> <a name='tag_".data ++ v ++ "'>".data
          ++ v ++ "</a>".data)
      ∧ (∀ (k label : List Char) (vs : List (List Char)),
          keyLabel k = some label → k ≠ TAG_KEY → m ≠ Mode.preview →
          formatKeywords m true (k :: vs)
            = "<span class='tags'>".data ++ label ++ ":</span> ".data
              ++ pyJoin ", ".data (vs.map (fun v2 =>
                  "<a href='#tag_".data ++ v2 ++ "'>".data ++ v2 ++ "</a>".data)))
      ∧ (∀ (k label : List Char) (vs : List (List Char)),
          keyLabel k = some label → k ≠ TAG_KEY →
          formatKeywords Mode.preview true (k :: vs)
            = "<span class='tags'>".data ++ label ++ ":</span> ".data
              ++ pyJoin ", ".data (vs.map (fun v2 =>
                  "<a href='#".data ++ k.drop 1 ++ ['='] ++ v2 ++ "'>".data
                    ++ v2 ++ "</a>".data))) := by
  intro m v rest
  refine ⟨?_, ?_, ?_⟩
  · simp +decide [formatKeywords, keyLabel, KEY_NAME, TAG_KEY]
  · intro k label vs hl hk hm
    rcases vs with _ | ⟨v1, vs1⟩
    · simp [formatKeywords, hl, pyJoin]
    · simp [formatKeywords, hl, hk, hm, pyJoin]
  · intro k label vs hl hk
    rcases vs with _ | ⟨v1, vs1⟩
    · simp [formatKeywords, hl, pyJoin]
    · simp [formatKeywords, hl, hk, pyJoin]

/-- Witness for C6 at concrete inputs. -/
theorem C6_keyword_links_witness :
    formatKeywords Mode.export true (TAG_KEY :: "alpha".data :: [])
      = "<span class='tags'>Tag:</span> <a name='tag_alpha'>alpha</a>".data
    ∧ formatKeywords Mode.export true ("@pov".data :: ["alpha".data])
      = "<span class='tags'>Point of View:</span> <a href='#tag_alpha'>alpha</a>".data
    ∧ formatKeywords Mode.preview true ("@pov".data :: ["alpha".data])
      = "<span class='tags'>Point of View:</span> <a href='#pov=alpha'>alpha</a>".data :=
  ⟨((C6_keyword_links Mode.export "alpha".data []).1).trans (by decide),
   ((C6_keyword_links Mode.export [] []).2.1 "@pov".data "Point of View".data
      ["alpha".data] (by decide) (by decide) (by decide)).trans (by decide),
   ((C6_keyword_links Mode.preview [] []).2.2 "@pov".data "Point of View".data
      ["alpha".data] (by decide) (by decide)).trans (by decide)⟩

/-- C7: a keyword the index reports invalid, or with no segments, resolves
to the empty fragment; the render loop then emits only the empty paragraph
wrapper, leaves the paragraph buffer, style and hard-break flag untouched,
and the rest of the token sequence renders exactly as before. -/
theorem C7_invalid_keyword :
    (∀ (m : Mode) (bits : List (List Char)), formatKeywords m false bits = [])
    ∧ (∀ m : Mode, formatKeywords m true [] = [])
    ∧ (∀ (cfg : Config) (scan : ScanFun) (s : ConvState) (ln : Nat)
        (t : List Char) (post : List Token),
        cfg.doKeywords = true →
        ((scan ('@' :: t)).1 = false ∨ (scan ('@' :: t)).2.1 = []) →
        List.foldl (convStep cfg scan) s
            (⟨TType.tKeyword, ln, t, [], none⟩ :: post)
          = List.foldl (convStep cfg scan)
              ⟨s.thisPar, s.parStyle, s.hasHardBreak,
                s.tmpResult ++ ["<p></p>\n".data]⟩ post) := by
  refine ⟨?_, ?_, ?_⟩
  · intro m bits
    simp [formatKeywords]
  · intro m
    simp [formatKeywords]
  · intro cfg scan s ln t post hdk hinv
    have hfk : formatKeywords cfg.genMode (scan ('@' :: t)).1
        (scan ('@' :: t)).2.1 = [] := by
      rcases hinv with h | h
      · simp [formatKeywords, h]
      · simp [formatKeywords, h]
    rw [List.foldl_cons]
    congr 1
    simp [convStep, hdk, hfk, hStyleOf, aStyleList]

/-- Witness for C7 at concrete inputs. -/
theorem C7_invalid_keyword_witness :
    formatKeywords Mode.export false ["@pov".data] = []
    ∧ formatKeywords Mode.export true [] = []
    ∧ List.foldl (convStep ⟨Mode.export, true, false, false, false, false, true⟩
          scanInvalid) initState [⟨TType.tKeyword, 1, "pov: x".data, [], none⟩]
      = List.foldl (convStep ⟨Mode.export, true, false, false, false, false, true⟩
          scanInvalid)
          ⟨initState.thisPar, initState.parStyle, initState.hasHardBreak,
            initState.tmpResult ++ ["<p></p>\n".data]⟩ [] :=
  ⟨C7_invalid_keyword.1 Mode.export ["@pov".data],
   C7_invalid_keyword.2.1 Mode.export,
   C7_invalid_keyword.2.2 ⟨Mode.export, true, false, false, false, false, true⟩
     scanInvalid initState 1 "pov: x".data [] rfl (Or.inl rfl)⟩

/-- C10: a keyword whose first index segment is not in the fixed label
table resolves to the empty fragment even when valid with segments, and a
non-empty keyword fragment arises only when the first segment has a label
in the table. -/
theorem C10_unknown_keyword_label :
    (∀ (m : Mode) (k : List Char) (vs : List (List Char)),
      keyLabel k = none → formatKeywords m true (k :: vs) = [])
    ∧ (∀ (m : Mode) (isValid : Bool) (bits : List (List Char)),
        formatKeywords m isValid bits ≠ [] →
        ∃ k vs label, bits = k :: vs ∧ keyLabel k = some label) := by
  constructor
  · intro m k vs h
    simp [formatKeywords, h]
  · intro m isValid bits hne
    cases isValid with
    | false => exact absurd (by simp [formatKeywords]) hne
    | true =>
        cases bits with
        | nil => exact absurd (by simp [formatKeywords]) hne
        | cons k vs =>
            cases hk : keyLabel k with
            | none => exact absurd (by simp [formatKeywords, hk]) hne
            | some label => exact ⟨k, vs, label, rfl, hk⟩

/-- Witness for C10 at concrete inputs. -/
theorem C10_unknown_keyword_label_witness :
    formatKeywords Mode.export true ["@nosuch".data, "x".data] = []
    ∧ ∃ k vs label, (["@pov".data, "x".data] : List (List Char)) = k :: vs
        ∧ keyLabel k = some label :=
  ⟨C10_unknown_keyword_label.1 Mode.export "@nosuch".data ["x".data] (by decide),
   C10_unknown_keyword_label.2 Mode.export true ["@pov".data, "x".data]
     (by decide)⟩

lemma convStep_text_tmpResult (cfg : Config) (scan : ScanFun) (s : ConvState)
    (tok : Token) (h : tok.tType = TType.tText) :
    (convStep cfg scan s tok).tmpResult = s.tmpResult := by
  rcases tok with ⟨ty, ln, tx, fm, st⟩
  simp only [Token.tType] at h
  subst h
  by_cases he : endsTwoSpaces tx = true <;> simp [convStep, he]

lemma foldl_textToks_tmpResult (cfg : Config) (scan : ScanFun) :
    ∀ (ts : List Token) (s : ConvState), (∀ x ∈ ts, x.tType = TType.tText) →
      (List.foldl (convStep cfg scan) s ts).tmpResult = s.tmpResult := by
  intro ts
  induction ts with
  | nil => intro s _; rfl
  | cons x ts ih =>
      intro s hx
      rw [List.foldl_cons, ih _ (fun y hy => hx y (List.mem_cons_of_mem x hy)),
        convStep_text_tmpResult cfg scan s x (hx x (List.mem_cons_self x ts))]

/-- C8: trailing text tokens with no following `Empty` token leave the
output unchanged (the open paragraph buffer is never auto-flushed), and a
`Title` or `Heading1..4` token emits exactly its heading fragment while
leaving the open paragraph buffer, style and hard-break flag untouched. -/
theorem C8_no_autoflush :
    (∀ (cfg : Config) (scan : ScanFun) (toks textToks : List Token),
      (∀ x ∈ textToks, x.tType = TType.tText) →
      doConvert cfg scan (toks ++ textToks) = doConvert cfg scan toks)
    ∧ (∀ (cfg : Config) (scan : ScanFun) (s : ConvState) (ln : Nat)
        (t : List Char) (fm : List (Nat × Nat × Fmt)) (st : Option StyleFlags),
        (convStep cfg scan s ⟨TType.tTitle, ln, t, fm, st⟩
          = ⟨s.thisPar, s.parStyle, s.hasHardBreak, s.tmpResult
              ++ ["<h1 class='title'".data ++ hStyleOf cfg st ++ ['>']
                  ++ aNmOf cfg ln ++ pyReplace t "\\\\".data "<br/>".data
                  ++ "</h1>\n".data]⟩)
        ∧ (convStep cfg scan s ⟨TType.tHead1, ln, t, fm, st⟩
          = ⟨s.thisPar, s.parStyle, s.hasHardBreak, s.tmpResult
              ++ [['<'] ++ (headTags cfg).h1 ++ (headTags cfg).h1Cl
                  ++ hStyleOf cfg st ++ ['>'] ++ aNmOf cfg ln
                  ++ pyReplace t "\\\\".data "<br/>".data
                  ++ "</".data ++ (headTags cfg).h1 ++ ">\n".data]⟩)
        ∧ (convStep cfg scan s ⟨TType.tHead2, ln, t, fm, st⟩
          = ⟨s.thisPar, s.parStyle, s.hasHardBreak, s.tmpResult
              ++ [['<'] ++ (headTags cfg).h2 ++ hStyleOf cfg st ++ ['>']
                  ++ aNmOf cfg ln ++ pyReplace t "\\\\".data "<br/>".data
                  ++ "</".data ++ (headTags cfg).h2 ++ ">\n".data]⟩)
        ∧ (convStep cfg scan s ⟨TType.tHead3, ln, t, fm, st⟩
          = ⟨s.thisPar, s.parStyle, s.hasHardBreak, s.tmpResult
              ++ [['<'] ++ (headTags cfg).h3 ++ hStyleOf cfg st ++ ['>']
                  ++ aNmOf cfg ln ++ pyReplace t "\\\\".data "<br/>".data
                  ++ "</".data ++ (headTags cfg).h3 ++ ">\n".data]⟩)
        ∧ (convStep cfg scan s ⟨TType.tHead4, ln, t, fm, st⟩
          = ⟨s.thisPar, s.parStyle, s.hasHardBreak, s.tmpResult
              ++ [['<'] ++ (headTags cfg).h4 ++ hStyleOf cfg st ++ ['>']
                  ++ aNmOf cfg ln ++ pyReplace t "\\\\".data "<br/>".data
                  ++ "</".data ++ (headTags cfg).h4 ++ ">\n".data]⟩)) := by
  constructor
  · intro cfg scan toks textToks h
    show pyJoin [] _ = pyJoin [] _
    rw [List.foldl_append, foldl_textToks_tmpResult cfg scan textToks _ h]
  · intro cfg scan s ln t fm st
    exact ⟨rfl, rfl, rfl, rfl, rfl⟩

/-- Witness for C8 at concrete inputs. -/
theorem C8_no_autoflush_witness :
    doConvert (plainCfg Mode.export false) scanInvalid
        ([⟨TType.tEmpty, 1, [], [], none⟩]
          ++ [⟨TType.tText, 2, "abc".data, [], none⟩])
      = doConvert (plainCfg Mode.export false) scanInvalid
          [⟨TType.tEmpty, 1, [], [], none⟩]
    ∧ convStep (plainCfg Mode.export false) scanInvalid initState
        ⟨TType.tTitle, 1, "T".data, [], none⟩
      = ⟨initState.thisPar, initState.parStyle, initState.hasHardBreak,
          initState.tmpResult ++ ["<h1 class='title'".data
            ++ hStyleOf (plainCfg Mode.export false) none ++ ['>']
            ++ aNmOf (plainCfg Mode.export false) 1
            ++ pyReplace "T".data "\\\\".data "<br/>".data ++ "</h1>\n".data]⟩ :=
  ⟨C8_no_autoflush.1 (plainCfg Mode.export false) scanInvalid
      [⟨TType.tEmpty, 1, [], [], none⟩]
      [⟨TType.tText, 2, "abc".data, [], none⟩] (by decide),
   (C8_no_autoflush.2 (plainCfg Mode.export false) scanInvalid initState 1
      "T".data [] none).1⟩

lemma pyReplace_tab_cons_tab (rep cs : List Char) :
    pyReplace ('\t' :: cs) ['\t'] rep = rep ++ pyReplace cs ['\t'] rep :=
  reSub_cons_match (rfl : firstMatch [(['\t'], rep)] ('\t' :: cs) = some (rep, 1))

lemma pyReplace_tab_cons_other (c : Char) (hc : c ≠ '\t') (rep cs : List Char) :
    pyReplace (c :: cs) ['\t'] rep = c :: pyReplace cs ['\t'] rep :=
  reSub_cons_nomatch (by simp [firstMatch, isPrefixList_single (Ne.symm hc)])

lemma tab_not_mem_pyReplace (rep : List Char) (hrep : '\t' ∉ rep) :
    ∀ l : List Char, '\t' ∉ pyReplace l ['\t'] rep := by
  intro l
  induction l with
  | nil => simp [pyReplace, reSub_nil]
  | cons c cs ih =>
      by_cases hc : c = '\t'
      · subst hc
        rw [pyReplace_tab_cons_tab]
        intro hm
        rcases List.mem_append.mp hm with h | h
        · exact hrep h
        · exact ih h
      · rw [pyReplace_tab_cons_other c hc]
        intro hm
        rcases List.mem_cons.mp hm with h | h
        · exact hc h.symm
        · exact ih h

lemma pyReplace_tab_id (rep : List Char) :
    ∀ l : List Char, '\t' ∉ l → pyReplace l ['\t'] rep = l := by
  intro l
  induction l with
  | nil => intro _; rfl
  | cons c cs ih =>
      intro h
      have hc : c ≠ '\t' := fun hc => h (hc ▸ List.mem_cons_self c cs)
      rw [pyReplace_tab_cons_other c hc,
        ih (fun hm => h (List.mem_cons_of_mem c hm))]

/-- C9: assembling after the default tab expansion concatenates the
fragments in append order, expands every tab to eight `&nbsp;` entities,
right-trims the body and wraps it in the fixed envelope with the project
title substituted verbatim (unescaped); the tab expansion to eight
placeholder entities is done by `replaceTabs` with its default arguments,
after which the `&#09;` replacement inside `saveHTML5` has nothing left
to do. -/
theorem C9_assembly :
    ∀ (fullHTML : List (List Char)) (projTitle htmlStyle : List Char),
      assembleHTML (replaceTabs fullHTML 8 "&nbsp;".data) projTitle htmlStyle
        = "<!DOCTYPE html>\n<html>\n<head>\n<meta charset='utf-8'>\n<title>".data
          ++ projTitle ++ "</title>\n</head>\n<style>\n".data ++ htmlStyle
          ++ "\n</style>\n<body>\n<article>\n".data
          ++ rstrip (pyJoin [] (fullHTML.map (fun f =>
               pyReplace f ['\t'] (pyRepeat "&nbsp;".data 8))))
          ++ "\n</article>\n</body>\n</html>\n".data := by
  intro fullHTML projTitle htmlStyle
  have hnot : '\t' ∉ pyJoin [] (fullHTML.map (fun f =>
      pyReplace f ['\t'] (pyRepeat "&nbsp;".data 8))) := by
    rw [pyJoin_nil_eq_join]
    intro hm
    rcases List.mem_flatten.mp hm with ⟨l, hl, hml⟩
    rcases List.mem_map.mp hl with ⟨f, _, rfl⟩
    exact tab_not_mem_pyReplace (pyRepeat "&nbsp;".data 8) (by decide) f hml
  show "<!DOCTYPE html>\n<html>\n<head>\n<meta charset='utf-8'>\n<title>".data
      ++ projTitle ++ "</title>\n</head>\n<style>\n".data ++ htmlStyle
      ++ "\n</style>\n<body>\n<article>\n".data
      ++ rstrip (pyReplace (pyJoin [] (replaceTabs fullHTML 8 "&nbsp;".data))
          ['\t'] "&#09;".data)
      ++ "\n</article>\n</body>\n</html>\n".data = _
  rw [show replaceTabs fullHTML 8 "&nbsp;".data = fullHTML.map (fun f =>
      pyReplace f ['\t'] (pyRepeat "&nbsp;".data 8)) from rfl,
    pyReplace_tab_id "&#09;".data _ hnot]

end ToHtml


